import Mathlib

/-!
Verification of the credit-valuation pipeline.

The data model follows `src/credit_valuation/models.py` and the pure
pipeline follows `src/credit_valuation/engine.py`.  The dataframe is
embedded as a list of rows; each pipeline stage widens the row type with
the columns it appends.  All arithmetic the Python code performs on
floats is carried out exactly: rationals for the products and sums, and
real numbers for the fractional-exponent discount factor.
-/

namespace CreditValuation

/-- Mirrors `PeriodData` in models.py: one statement period's inputs. -/
structure PeriodData where
  period : ℤ
  prob_charge_off : ℚ
  prob_attrition : ℚ
  revolving_balance : ℚ
  purchase_amount : ℚ
  finance_charge_rate : ℚ
  other_fees : ℚ
deriving Repr, DecidableEq

/-- The per-field range checks of `PeriodData` (pydantic `Field` bounds). -/
def PeriodData.fieldsInRange (p : PeriodData) : Prop :=
  1 ≤ p.period ∧ p.period ≤ 60 ∧
  0 ≤ p.prob_charge_off ∧ p.prob_charge_off ≤ 1 ∧
  0 ≤ p.prob_attrition ∧ p.prob_attrition ≤ 1 ∧
  0 ≤ p.revolving_balance ∧
  0 ≤ p.purchase_amount ∧
  0 ≤ p.finance_charge_rate ∧ p.finance_charge_rate ≤ 1 ∧
  0 ≤ p.other_fees

instance (p : PeriodData) : Decidable p.fieldsInRange := by
  unfold PeriodData.fieldsInRange; infer_instance

/-- Full validity of a `PeriodData`: range checks plus the
`_competing_risks_valid` model validator. -/
def PeriodData.valid (p : PeriodData) : Prop :=
  p.fieldsInRange ∧ p.prob_charge_off + p.prob_attrition ≤ 1

instance (p : PeriodData) : Decidable p.valid := by
  unfold PeriodData.valid; infer_instance

/-- Mirrors `GlobalParameters` in models.py. -/
structure GlobalParameters where
  flat_interchange_rate : ℚ
  discount_rate : ℚ
  num_accounts : ℤ
deriving Repr, DecidableEq

/-- The pydantic `Field` bounds of `GlobalParameters`. -/
def GlobalParameters.valid (g : GlobalParameters) : Prop :=
  0 ≤ g.flat_interchange_rate ∧ g.flat_interchange_rate ≤ 1 ∧
  0 ≤ g.discount_rate ∧ 0 < g.num_accounts

instance (g : GlobalParameters) : Decidable g.valid := by
  unfold GlobalParameters.valid; infer_instance

/-- Mirrors `CohortInput` in models.py. -/
structure CohortInput where
  periods : List PeriodData
  parameters : GlobalParameters
deriving Repr, DecidableEq

/-- The sequence `1, 2, ..., n` of period indices the `_periods_sequential`
validator expects (`list(range(1, len(periods) + 1))`). -/
def seqExpected (n : ℕ) : List ℤ :=
  (List.range' 1 n).map Int.ofNat

/-- Full validity of a `CohortInput`: every nested model valid plus the
`_periods_sequential` model validator. -/
def CohortInput.valid (c : CohortInput) : Prop :=
  (∀ p ∈ c.periods, p.valid) ∧ c.parameters.valid ∧
  c.periods.map PeriodData.period = seqExpected c.periods.length

instance (c : CohortInput) : Decidable c.valid := by
  unfold CohortInput.valid; infer_instance

/-- Mirrors `ValuationSummary` in models.py.  The column sums the Python
code takes over float columns are exact here: rationals for the revenue,
cost and net-income totals and the survival rate, reals for the
discounted totals. -/
structure ValuationSummary where
  total_pv : ℝ
  pv_per_account : ℝ
  total_revenue : ℚ
  total_cost : ℚ
  total_net_income : ℚ
  final_survival_rate : ℚ
  num_periods : ℕ
  num_accounts : ℤ

/-- A row of the base period table built by `build_period_table`:
the period's own fields plus the broadcast global parameters. -/
structure BaseRow where
  period : ℤ
  prob_charge_off : ℚ
  prob_attrition : ℚ
  revolving_balance : ℚ
  purchase_amount : ℚ
  finance_charge_rate : ℚ
  other_fees : ℚ
  flat_interchange_rate : ℚ
  discount_rate : ℚ
  num_accounts : ℤ
deriving Repr, DecidableEq

/-- Mirrors `build_period_table` in engine.py.  One caveat of the typed
row representation: when the cohort has no periods, pandas builds
`pd.DataFrame([])`, a frame with *no columns at all* (the three
broadcast assignments then add only those three columns), whereas the
empty list here still stands for a table whose column set is complete.
The consequence — the first period-column access in `compute_survival`
raises `KeyError` on that frame — is therefore modelled explicitly as
the empty-table error branch of `run_valuation`. -/
def build_period_table (c : CohortInput) : List BaseRow :=
  c.periods.map fun p =>
    { period := p.period
      prob_charge_off := p.prob_charge_off
      prob_attrition := p.prob_attrition
      revolving_balance := p.revolving_balance
      purchase_amount := p.purchase_amount
      finance_charge_rate := p.finance_charge_rate
      other_fees := p.other_fees
      flat_interchange_rate := c.parameters.flat_interchange_rate
      discount_rate := c.parameters.discount_rate
      num_accounts := c.parameters.num_accounts }

/-- A row after `compute_survival`: the base columns plus the survival
cascade columns. -/
structure SurvRow extends BaseRow where
  survival_factor : ℚ
  cumulative_survival : ℚ
  active_accounts_bop : ℚ
  charge_off_accounts : ℚ
  attrition_accounts : ℚ
deriving Repr, DecidableEq

/-- The survival cascade with explicit accumulator: `acc` is the product
of the survival factors of all prior rows, which is what
`cumprod().shift(1, fill_value=1.0)` assigns to `cumulative_survival`. -/
def compute_survival_from (acc : ℚ) : List BaseRow → List SurvRow
  | [] => []
  | r :: rest =>
    let sf : ℚ := 1 - r.prob_charge_off - r.prob_attrition
    let abop : ℚ := (r.num_accounts : ℚ) * acc
    { toBaseRow := r
      survival_factor := sf
      cumulative_survival := acc
      active_accounts_bop := abop
      charge_off_accounts := abop * r.prob_charge_off
      attrition_accounts := abop * r.prob_attrition } ::
      compute_survival_from (acc * sf) rest

/-- Mirrors `compute_survival` in engine.py. -/
def compute_survival (df : List BaseRow) : List SurvRow :=
  compute_survival_from 1 df

/-- A row after `compute_revenue`. -/
structure RevRow extends SurvRow where
  finance_charge : ℚ
  interchange : ℚ
  fee_income : ℚ
  total_revenue : ℚ
deriving Repr, DecidableEq

/-- Mirrors `compute_revenue` in engine.py: purely row-wise. -/
def compute_revenue (df : List SurvRow) : List RevRow :=
  df.map fun r =>
    let fc : ℚ := r.active_accounts_bop * r.revolving_balance * r.finance_charge_rate
    let ic : ℚ := r.active_accounts_bop * r.purchase_amount * r.flat_interchange_rate
    let fee : ℚ := r.active_accounts_bop * r.other_fees
    { toSurvRow := r
      finance_charge := fc
      interchange := ic
      fee_income := fee
      total_revenue := fc + ic + fee }

/-- A row after `compute_costs`. -/
structure CostRow extends RevRow where
  charge_off_loss : ℚ
  total_cost : ℚ
deriving Repr, DecidableEq

/-- Mirrors `compute_costs` in engine.py: purely row-wise. -/
def compute_costs (df : List RevRow) : List CostRow :=
  df.map fun r =>
    let closs : ℚ := r.active_accounts_bop * r.prob_charge_off * r.revolving_balance
    { toRevRow := r
      charge_off_loss := closs
      total_cost := closs }

/-- A row after `compute_net_income_and_pv`.  The discount factor has an
irrational exponent `period / 12`, so these columns live in `ℝ`. -/
structure PVRow extends CostRow where
  net_income : ℚ
  discount_factor : ℝ
  pv_net_income : ℝ
  cumulative_pv : ℝ

/-- The net-income / discounting stage with explicit accumulator: `acc`
is the running sum of `pv_net_income` over all prior rows, which is what
`cumsum()` assigns to `cumulative_pv`. -/
noncomputable def compute_pv_from (acc : ℝ) : List CostRow → List PVRow
  | [] => []
  | r :: rest =>
    let ni : ℚ := r.total_revenue - r.total_cost
    let dfac : ℝ := 1 / (1 + (r.discount_rate : ℝ)) ^ ((r.period : ℝ) / 12)
    let pv : ℝ := (ni : ℝ) * dfac
    { toCostRow := r
      net_income := ni
      discount_factor := dfac
      pv_net_income := pv
      cumulative_pv := acc + pv } ::
      compute_pv_from (acc + pv) rest

/-- Mirrors `compute_net_income_and_pv` in engine.py. -/
noncomputable def compute_net_income_and_pv (df : List CostRow) : List PVRow :=
  compute_pv_from 0 df

/-- The completed period table of `run_valuation`: the four stages
composed over the base table. -/
noncomputable def pipelineTable (c : CohortInput) : List PVRow :=
  compute_net_income_and_pv (compute_costs (compute_revenue
    (compute_survival (build_period_table c))))

/-- Mirrors `compute_summary` in engine.py.  Python raises an
`IndexError` on `iloc[-1]` when the table is empty and a
`ZeroDivisionError` on `total_pv / num_accounts` when `num_accounts`
is zero; both error branches are `none` here. -/
noncomputable def compute_summary (df : List PVRow) (num_accounts : ℤ) :
    Option ValuationSummary :=
  match df.getLast? with
  | none => none
  | some last =>
    if num_accounts = 0 then none
    else
      let total_pv : ℝ := (df.map PVRow.pv_net_income).sum
      some
        { total_pv := total_pv
          pv_per_account := total_pv / (num_accounts : ℝ)
          total_revenue := (df.map fun r => r.total_revenue).sum
          total_cost := (df.map fun r => r.total_cost).sum
          total_net_income := (df.map PVRow.net_income).sum
          final_survival_rate := last.cumulative_survival * last.survival_factor
          num_periods := df.length
          num_accounts := num_accounts }

/-- Mirrors `run_valuation` in engine.py: the full pipeline; any raised
error propagates to the caller (`none`).  When the built period table is
empty, the real frame has no columns and `compute_survival`'s access
`df["prob_charge_off"]` raises `KeyError` before any stage computes;
that error branch is the first guard here. -/
noncomputable def run_valuation (c : CohortInput) :
    Option (List PVRow × ValuationSummary) :=
  if build_period_table c = [] then none
  else
    match compute_summary (pipelineTable c) c.parameters.num_accounts with
    | none => none
    | some s => some (pipelineTable c, s)

/-! ### Fallible model construction (pydantic validators and messages) -/

/-- The message raised by `PeriodData._competing_risks_valid`, with the
same interpolations as the Python f-string. -/
def competingRiskMsg (pco pat : ℚ) : String :=
  "prob_charge_off (" ++ toString pco ++ ") + prob_attrition (" ++
    toString pat ++ ") exceeds 1.0"

/-- The placeholder for a pydantic-generated range-violation message. -/
def rangeErrMsg : String :=
  "field out of range"

/-- Constructing a `PeriodData`: the pydantic field range checks run
first (their messages are pydantic-generated and not modelled beyond a
placeholder), then the `_competing_risks_valid` model validator. -/
def mkPeriodData (p : PeriodData) : Except String PeriodData :=
  if ¬ p.fieldsInRange then .error rangeErrMsg
  else if 1 < p.prob_charge_off + p.prob_attrition then
    .error (competingRiskMsg p.prob_charge_off p.prob_attrition)
  else .ok p

/-- Python's rendering of a list of ints, as interpolated by an f-string. -/
def pyIntList (l : List ℤ) : String :=
  "[" ++ ", ".intercalate (l.map toString) ++ "]"

/-- The message raised by `CohortInput._periods_sequential`: it shows
`actual[:5]` followed by a literal ellipsis. -/
def seqMsg (actual : List ℤ) : String :=
  "Periods must be sequential starting at 1. Got: " ++
    pyIntList (actual.take 5) ++ "..."

/-- Constructing a `CohortInput` from already-validated parts: only the
`_periods_sequential` model validator runs. -/
def mkCohortInput (ps : List PeriodData) (g : GlobalParameters) :
    Except String CohortInput :=
  let actual := ps.map PeriodData.period
  if actual ≠ seqExpected ps.length then .error (seqMsg actual)
  else .ok ⟨ps, g⟩

/-- `listOccurs sub s` decides whether `sub` occurs contiguously in `s`;
used to state what a validation message does and does not mention. -/
def listOccurs (sub : List Char) : List Char → Bool
  | [] => sub == []
  | c :: rest => (c :: rest).take sub.length == sub || listOccurs sub rest

/-- `strOccurs sub s`: the string `sub` occurs contiguously inside `s`. -/
def strOccurs (sub s : String) : Prop :=
  listOccurs sub.data s.data = true

instance (sub s : String) : Decidable (strOccurs sub s) := by
  unfold strOccurs; infer_instance

/-- The survival factor of a base row, as `compute_survival` computes it. -/
def sfB (r : BaseRow) : ℚ :=
  1 - r.prob_charge_off - r.prob_attrition

/-! ### Concrete inputs used in example scenarios -/

/-- A cohort with an empty period list.  Its period sequence is the empty
sequence `1..0`, so the `_periods_sequential` validator accepts it. -/
def emptyCohort : CohortInput :=
  { periods := []
    parameters := { flat_interchange_rate := 0, discount_rate := 0, num_accounts := 1 } }

/-- A minimal valid one-period cohort. -/
def onePeriodCohort : CohortInput :=
  { periods := [{ period := 1, prob_charge_off := 0, prob_attrition := 0,
                  revolving_balance := 0, purchase_amount := 0,
                  finance_charge_rate := 0, other_fees := 0 }]
    parameters := { flat_interchange_rate := 0, discount_rate := 0, num_accounts := 1 } }

/-- A valid two-period cohort with exits in the first period. -/
def twoPeriodCohort : CohortInput :=
  { periods := [{ period := 1, prob_charge_off := 1/2, prob_attrition := 1/4,
                  revolving_balance := 0, purchase_amount := 0,
                  finance_charge_rate := 0, other_fees := 0 },
                { period := 2, prob_charge_off := 0, prob_attrition := 0,
                  revolving_balance := 0, purchase_amount := 0,
                  finance_charge_rate := 0, other_fees := 0 }]
    parameters := { flat_interchange_rate := 0, discount_rate := 0, num_accounts := 4 } }

/-- The single period of the spec's reference scenario. -/
def refPeriod : PeriodData :=
  { period := 1, prob_charge_off := 0.02, prob_attrition := 0.03,
    revolving_balance := 5000, purchase_amount := 1000,
    finance_charge_rate := 0.015, other_fees := 25 }

/-- The spec's reference scenario: one period, cohort of 1000. -/
def refCohort : CohortInput :=
  { periods := [refPeriod]
    parameters := { flat_interchange_rate := 0.02, discount_rate := 0.10,
                    num_accounts := 1000 } }

/-- A period whose competing-risk probabilities sum to `6/5 > 1`. -/
def badPeriod : PeriodData :=
  { period := 1, prob_charge_off := 3/5, prob_attrition := 3/5,
    revolving_balance := 0, purchase_amount := 0,
    finance_charge_rate := 0, other_fees := 0 }

/-- A period list in the wrong order: periods `[2, 1]`. -/
def badPeriods : List PeriodData :=
  [{ period := 2, prob_charge_off := 0, prob_attrition := 0,
     revolving_balance := 0, purchase_amount := 0,
     finance_charge_rate := 0, other_fees := 0 },
   { period := 1, prob_charge_off := 0, prob_attrition := 0,
     revolving_balance := 0, purchase_amount := 0,
     finance_charge_rate := 0, other_fees := 0 }]

/-- Valid global parameters used in validation examples. -/
def someParams : GlobalParameters :=
  { flat_interchange_rate := 0, discount_rate := 0, num_accounts := 1 }

/-- The rational `3/5` in reduced constructor form, so that its decimal
rendering can be computed. -/
def q35 : ℚ := ⟨3, 5, by decide, by decide⟩

/-- The rational `6/5` in reduced constructor form. -/
def q65 : ℚ := ⟨6, 5, by decide, by decide⟩

/-! ### Basic structural lemmas: lengths, projections, row-local facts -/

@[simp]
lemma compute_survival_from_length (acc : ℚ) (df : List BaseRow) :
    (compute_survival_from acc df).length = df.length := by
  induction df generalizing acc with
  | nil => rfl
  | cons r rest ih => simp [compute_survival_from, ih]

@[simp]
lemma compute_revenue_length (df : List SurvRow) :
    (compute_revenue df).length = df.length := by
  simp [compute_revenue]

@[simp]
lemma compute_costs_length (df : List RevRow) :
    (compute_costs df).length = df.length := by
  simp [compute_costs]

@[simp]
lemma compute_pv_from_length (acc : ℝ) (df : List CostRow) :
    (compute_pv_from acc df).length = df.length := by
  induction df generalizing acc with
  | nil => rfl
  | cons r rest ih => simp [compute_pv_from, ih]

@[simp]
lemma build_period_table_length (c : CohortInput) :
    (build_period_table c).length = c.periods.length := by
  simp [build_period_table]

@[simp]
lemma pipelineTable_length (c : CohortInput) :
    (pipelineTable c).length = c.periods.length := by
  simp [pipelineTable, compute_survival, compute_net_income_and_pv]

/-- `compute_survival` only appends columns: the base columns of its
output are its input, row for row. -/
lemma compute_survival_from_proj (acc : ℚ) (df : List BaseRow) :
    (compute_survival_from acc df).map SurvRow.toBaseRow = df := by
  induction df generalizing acc with
  | nil => rfl
  | cons r rest ih => simp [compute_survival_from, ih]

/-- `compute_revenue` only appends columns. -/
lemma compute_revenue_proj (df : List SurvRow) :
    (compute_revenue df).map RevRow.toSurvRow = df := by
  induction df with
  | nil => rfl
  | cons r rest ih =>
    simp only [compute_revenue, List.map_cons] at ih ⊢
    rw [ih]

/-- `compute_costs` only appends columns. -/
lemma compute_costs_proj (df : List RevRow) :
    (compute_costs df).map CostRow.toRevRow = df := by
  induction df with
  | nil => rfl
  | cons r rest ih =>
    simp only [compute_costs, List.map_cons] at ih ⊢
    rw [ih]

/-- `compute_net_income_and_pv` only appends columns. -/
lemma compute_pv_from_proj (acc : ℝ) (df : List CostRow) :
    (compute_pv_from acc df).map PVRow.toCostRow = df := by
  induction df generalizing acc with
  | nil => rfl
  | cons r rest ih => simp [compute_pv_from, ih]

/-- Row-local identities of the survival stage: every output row's
derived columns are the stated functions of its own columns. -/
lemma survival_row_facts (acc : ℚ) (df : List BaseRow) :
    ∀ s ∈ compute_survival_from acc df,
      s.survival_factor = 1 - s.prob_charge_off - s.prob_attrition ∧
      s.active_accounts_bop = (s.num_accounts : ℚ) * s.cumulative_survival ∧
      s.charge_off_accounts = s.active_accounts_bop * s.prob_charge_off ∧
      s.attrition_accounts = s.active_accounts_bop * s.prob_attrition := by
  induction df generalizing acc with
  | nil => intro s hs; cases hs
  | cons r rest ih =>
    intro s hs
    rcases List.mem_cons.mp hs with h | h
    · subst h
      refine ⟨rfl, rfl, rfl, rfl⟩
    · exact ih _ s h

/-- Row-local identities of the revenue stage. -/
lemma revenue_row_facts (df : List SurvRow) :
    ∀ x ∈ compute_revenue df,
      x.finance_charge =
        x.active_accounts_bop * x.revolving_balance * x.finance_charge_rate ∧
      x.interchange =
        x.active_accounts_bop * x.purchase_amount * x.flat_interchange_rate ∧
      x.fee_income = x.active_accounts_bop * x.other_fees ∧
      x.total_revenue = x.finance_charge + x.interchange + x.fee_income := by
  intro x hx
  rcases List.mem_map.mp hx with ⟨r, _, rfl⟩
  exact ⟨rfl, rfl, rfl, rfl⟩

/-- Row-local identities of the cost stage. -/
lemma costs_row_facts (df : List RevRow) :
    ∀ x ∈ compute_costs df,
      x.charge_off_loss =
        x.active_accounts_bop * x.prob_charge_off * x.revolving_balance ∧
      x.total_cost = x.charge_off_loss := by
  intro x hx
  rcases List.mem_map.mp hx with ⟨r, _, rfl⟩
  exact ⟨rfl, rfl⟩

/-- Row-local identities of the net-income / discounting stage. -/
lemma pv_row_facts (acc : ℝ) (df : List CostRow) :
    ∀ x ∈ compute_pv_from acc df,
      x.net_income = x.total_revenue - x.total_cost ∧
      x.discount_factor =
        1 / (1 + (x.discount_rate : ℝ)) ^ ((x.period : ℝ) / 12) ∧
      x.pv_net_income = (x.net_income : ℝ) * x.discount_factor := by
  induction df generalizing acc with
  | nil => intro x hx; cases hx
  | cons r rest ih =>
    intro x hx
    rcases List.mem_cons.mp hx with h | h
    · subst h
      refine ⟨rfl, rfl, rfl⟩
    · exact ih _ x h

/-- Membership transfer: a survival row comes from a base row of the input. -/
lemma survival_mem_base (acc : ℚ) (df : List BaseRow) :
    ∀ s ∈ compute_survival_from acc df, s.toBaseRow ∈ df := by
  intro s hs
  have h := List.mem_map_of_mem SurvRow.toBaseRow hs
  rwa [compute_survival_from_proj] at h

/-- Membership transfer for the revenue stage. -/
lemma revenue_mem_surv (df : List SurvRow) :
    ∀ x ∈ compute_revenue df, x.toSurvRow ∈ df := by
  intro x hx
  have h := List.mem_map_of_mem RevRow.toSurvRow hx
  rwa [compute_revenue_proj] at h

/-- Membership transfer for the cost stage. -/
lemma costs_mem_rev (df : List RevRow) :
    ∀ x ∈ compute_costs df, x.toRevRow ∈ df := by
  intro x hx
  have h := List.mem_map_of_mem CostRow.toRevRow hx
  rwa [compute_costs_proj] at h

/-- Membership transfer for the net-income / discounting stage. -/
lemma pv_mem_cost (acc : ℝ) (df : List CostRow) :
    ∀ x ∈ compute_pv_from acc df, x.toCostRow ∈ df := by
  intro x hx
  have h := List.mem_map_of_mem PVRow.toCostRow hx
  rwa [compute_pv_from_proj] at h

/-- The base columns of row `i` of the survival stage are row `i` of the
input. -/
lemma survival_getElem_base (acc : ℚ) (df : List BaseRow) (i : ℕ)
    (h1 : i < (compute_survival_from acc df).length) (h2 : i < df.length) :
    ((compute_survival_from acc df)[i]).toBaseRow = df[i] := by
  induction df generalizing acc i with
  | nil => simp at h2
  | cons r rest ih =>
    cases i with
    | zero => rfl
    | succ n =>
      have h1n : n < (compute_survival_from (acc * sfB r) rest).length := by
        simpa using Nat.lt_of_succ_lt_succ h2
      exact ih _ n h1n (Nat.lt_of_succ_lt_succ h2)

/-- The survival factor of row `i` is computed from base row `i`. -/
lemma survival_getElem_sf (acc : ℚ) (df : List BaseRow) (i : ℕ)
    (h1 : i < (compute_survival_from acc df).length) (h2 : i < df.length) :
    ((compute_survival_from acc df)[i]).survival_factor = sfB df[i] := by
  induction df generalizing acc i with
  | nil => simp at h2
  | cons r rest ih =>
    cases i with
    | zero => rfl
    | succ n =>
      have h1n : n < (compute_survival_from (acc * sfB r) rest).length := by
        simpa using Nat.lt_of_succ_lt_succ h2
      exact ih _ n h1n (Nat.lt_of_succ_lt_succ h2)

/-- Closed form of `cumulative_survival`: the accumulator times the
product of the survival factors of all prior rows
(`cumprod().shift(1, fill_value=1.0)`). -/
lemma survival_getElem_cs (acc : ℚ) (df : List BaseRow) (i : ℕ)
    (h1 : i < (compute_survival_from acc df).length) (h2 : i < df.length) :
    ((compute_survival_from acc df)[i]).cumulative_survival
      = acc * ((df.take i).map sfB).prod := by
  induction df generalizing acc i with
  | nil => simp at h2
  | cons r rest ih =>
    cases i with
    | zero => simp [compute_survival_from]
    | succ n =>
      have h2n := Nat.lt_of_succ_lt_succ h2
      have h1n : n < (compute_survival_from (acc * sfB r) rest).length := by
        simpa using h2n
      have := ih (acc * sfB r) n h1n h2n
      simp only [compute_survival_from, List.getElem_cons_succ, List.take_succ_cons,
        List.map_cons, List.prod_cons]
      exact this.trans (by ring)

/-- Closed form of `active_accounts_bop`. -/
lemma survival_getElem_abop (acc : ℚ) (df : List BaseRow) (i : ℕ)
    (h1 : i < (compute_survival_from acc df).length) (h2 : i < df.length) :
    ((compute_survival_from acc df)[i]).active_accounts_bop
      = ((df[i]).num_accounts : ℚ) * acc * ((df.take i).map sfB).prod := by
  have hmem := survival_row_facts acc df _
    (List.getElem_mem h1)
  rw [hmem.2.1, survival_getElem_cs acc df i h1 h2]
  have hnum : ((compute_survival_from acc df)[i]).num_accounts = (df[i]).num_accounts := by
    rw [show ((compute_survival_from acc df)[i]).num_accounts
          = (((compute_survival_from acc df)[i]).toBaseRow).num_accounts from rfl,
      survival_getElem_base acc df i h1 h2]
  rw [hnum]; ring

/-- The broadcast columns of every base row are the global parameters. -/
lemma build_row_broadcast (c : CohortInput) :
    ∀ b ∈ build_period_table c,
      b.flat_interchange_rate = c.parameters.flat_interchange_rate ∧
      b.discount_rate = c.parameters.discount_rate ∧
      b.num_accounts = c.parameters.num_accounts := by
  intro b hb
  rcases List.mem_map.mp hb with ⟨p, _, rfl⟩
  exact ⟨rfl, rfl, rfl⟩

/-- For a valid cohort, every base row inherits the validated field
bounds of its period. -/
lemma build_row_bounds (c : CohortInput) (hc : c.valid) :
    ∀ b ∈ build_period_table c,
      0 ≤ b.prob_charge_off ∧ b.prob_charge_off ≤ 1 ∧
      0 ≤ b.prob_attrition ∧ b.prob_attrition ≤ 1 ∧
      b.prob_charge_off + b.prob_attrition ≤ 1 ∧
      0 ≤ b.revolving_balance ∧ 0 ≤ b.purchase_amount ∧
      0 ≤ b.finance_charge_rate ∧ 0 ≤ b.other_fees := by
  intro b hb
  rcases List.mem_map.mp hb with ⟨p, hp, rfl⟩
  obtain ⟨hpv, hsum⟩ := hc.1 p hp
  obtain ⟨_, _, h1, h2, h3, h4, h5, h6, h7, _, h8⟩ := hpv
  exact ⟨h1, h2, h3, h4, hsum, h5, h6, h7, h8⟩

/-- A product of factors in `[0,1]` stays in `[0,1]`. -/
lemma prod_unit_interval (l : List ℚ) (h : ∀ x ∈ l, 0 ≤ x ∧ x ≤ 1) :
    0 ≤ l.prod ∧ l.prod ≤ 1 := by
  induction l with
  | nil => norm_num
  | cons a rest ih =>
    obtain ⟨ha0, ha1⟩ := h a (List.mem_cons_self a rest)
    obtain ⟨hp0, hp1⟩ := ih fun x hx => h x (List.mem_cons_of_mem a hx)
    refine ⟨mul_nonneg ha0 hp0, ?_⟩
    calc a * rest.prod ≤ 1 * 1 := by
          exact mul_le_mul ha1 hp1 hp0 (by norm_num)
      _ = 1 := by norm_num

/-- Account conservation for the survival cascade, generalized over the
accumulator: over any prefix of the output, the exited accounts plus the
still-active accounts scaled by the last survival factor equal
`num_accounts` times the incoming cumulative survival. -/
lemma conservation_from (N : ℤ) :
    ∀ (df : List BaseRow), (∀ r ∈ df, r.num_accounts = N) →
    ∀ (acc : ℚ) (k : ℕ) (hk : k < (compute_survival_from acc df).length),
      (((compute_survival_from acc df).take (k + 1)).map
          SurvRow.charge_off_accounts).sum +
      (((compute_survival_from acc df).take (k + 1)).map
          SurvRow.attrition_accounts).sum +
      ((compute_survival_from acc df)[k]).active_accounts_bop *
        ((compute_survival_from acc df)[k]).survival_factor
      = (N : ℚ) * acc := by
  intro df
  induction df with
  | nil =>
    intro _ acc k hk
    simp [compute_survival_from] at hk
  | cons r rest ih =>
    intro hN acc k hk
    have hrN : r.num_accounts = N := hN r (List.mem_cons_self r rest)
    cases k with
    | zero =>
      have hcast : ((r.num_accounts : ℤ) : ℚ) = (N : ℚ) := by exact_mod_cast hrN
      simp only [compute_survival_from, List.take_succ_cons, List.take_zero,
        List.map_cons, List.map_nil, List.sum_cons, List.sum_nil,
        List.getElem_cons_zero]
      rw [hcast]; ring
    | succ k =>
      have hk2 : k < (compute_survival_from
          (acc * (1 - r.prob_charge_off - r.prob_attrition)) rest).length := by
        simpa using Nat.lt_of_succ_lt_succ (by simpa using hk)
      have hrec := ih (fun x hx => hN x (List.mem_cons_of_mem r hx))
        (acc * (1 - r.prob_charge_off - r.prob_attrition)) k hk2
      have hcast : ((r.num_accounts : ℤ) : ℚ) = (N : ℚ) := by exact_mod_cast hrN
      simp only [compute_survival_from, List.take_succ_cons, List.map_cons,
        List.sum_cons, List.getElem_cons_succ]
      linear_combination hrec +
        (acc * r.prob_charge_off + acc * r.prob_attrition) * hcast

/-- The last row's `cumulative_pv` is the accumulator plus the sum of
the whole `pv_net_income` column. -/
lemma pv_from_getLast_cum (acc : ℝ) (df : List CostRow) :
    ∀ last, (compute_pv_from acc df).getLast? = some last →
      last.cumulative_pv
        = acc + ((compute_pv_from acc df).map PVRow.pv_net_income).sum := by
  induction df generalizing acc with
  | nil => intro last h; simp [compute_pv_from] at h
  | cons r rest ih =>
    intro last h
    cases rest with
    | nil =>
      simp only [compute_pv_from, List.getLast?] at h ⊢
      cases h
      simp [compute_pv_from]
    | cons r2 rest2 =>
      simp only [compute_pv_from, List.getLast?_cons_cons] at h ⊢
      have := ih _ last h
      simp only [compute_pv_from] at this
      rw [this]
      simp [List.sum_cons]
      ring

/-- Casting a rational list sum to the reals. -/
lemma rat_cast_list_sum (l : List ℚ) :
    ((l.sum : ℚ) : ℝ) = (l.map (Rat.cast : ℚ → ℝ)).sum := by
  induction l with
  | nil => simp
  | cons a rest ih => simp [ih]

/-- `compute_summary` on an empty table hits the `iloc[-1]` error branch. -/
lemma compute_summary_none (df : List PVRow) (n : ℤ)
    (h : df.getLast? = none) : compute_summary df n = none := by
  unfold compute_summary; rw [h]

/-- `compute_summary` on a non-empty table, spelled out. -/
lemma compute_summary_last (df : List PVRow) (n : ℤ) (last : PVRow)
    (h : df.getLast? = some last) :
    compute_summary df n =
      if n = 0 then none
      else
        some
          { total_pv := (df.map PVRow.pv_net_income).sum
            pv_per_account := (df.map PVRow.pv_net_income).sum / (n : ℝ)
            total_revenue := (df.map fun r => r.total_revenue).sum
            total_cost := (df.map fun r => r.total_cost).sum
            total_net_income := (df.map PVRow.net_income).sum
            final_survival_rate := last.cumulative_survival * last.survival_factor
            num_periods := df.length
            num_accounts := n } := by
  unfold compute_summary; rw [h]

/-- What `compute_summary` returns when it succeeds. -/
lemma compute_summary_eq (df : List PVRow) (n : ℤ) (s : ValuationSummary)
    (h : compute_summary df n = some s) :
    s.total_pv = (df.map PVRow.pv_net_income).sum ∧
    s.total_net_income = (df.map PVRow.net_income).sum ∧
    s.total_revenue = (df.map fun r => r.total_revenue).sum ∧
    s.total_cost = (df.map fun r => r.total_cost).sum ∧
    s.pv_per_account = (df.map PVRow.pv_net_income).sum / (n : ℝ) ∧
    s.num_periods = df.length ∧ s.num_accounts = n ∧
    ∃ last, df.getLast? = some last ∧
      s.final_survival_rate = last.cumulative_survival * last.survival_factor := by
  cases hl : df.getLast? with
  | none => rw [compute_summary_none df n hl] at h; cases h
  | some last =>
    rw [compute_summary_last df n last hl] at h
    by_cases hn : n = 0
    · rw [if_pos hn] at h; cases h
    · rw [if_neg hn] at h
      cases h
      exact ⟨rfl, rfl, rfl, rfl, rfl, rfl, rfl, last, rfl, rfl⟩

/-- Characterization of a successful `run_valuation`. -/
lemma run_valuation_eq_some (c : CohortInput) (t : List PVRow)
    (s : ValuationSummary) (h : run_valuation c = some (t, s)) :
    t = pipelineTable c ∧
    compute_summary (pipelineTable c) c.parameters.num_accounts = some s := by
  unfold run_valuation at h
  by_cases hemp : build_period_table c = []
  · rw [if_pos hemp] at h; cases h
  · rw [if_neg hemp] at h
    cases hs : compute_summary (pipelineTable c) c.parameters.num_accounts with
    | none => rw [hs] at h; cases h
    | some s2 =>
      rw [hs] at h
      cases h
      exact ⟨rfl, rfl⟩

/-- `run_valuation` succeeds on every valid cohort with at least one
period. -/
lemma run_valuation_total (c : CohortInput) (h1 : c.valid)
    (h2 : c.periods ≠ []) : ∃ t s, run_valuation c = some (t, s) := by
  have hlen : (pipelineTable c).length = c.periods.length := pipelineTable_length c
  have hne : pipelineTable c ≠ [] := by
    intro he
    apply h2
    have := congrArg List.length he
    rw [hlen] at this
    exact List.eq_nil_of_length_eq_zero this
  obtain ⟨last, hlast⟩ :=
    Option.isSome_iff_exists.mp (List.getLast?_isSome.mpr hne)
  have hn : c.parameters.num_accounts ≠ 0 := ne_of_gt h1.2.1.2.2.2
  have hsum := compute_summary_last (pipelineTable c)
    c.parameters.num_accounts last hlast
  rw [if_neg hn] at hsum
  have hbne : build_period_table c ≠ [] := by
    intro he
    exact h2 (List.map_eq_nil_iff.mp he)
  unfold run_valuation
  rw [if_neg hbne, hsum]
  exact ⟨_, _, rfl⟩

/-- The `period` column survives every stage unchanged. -/
lemma pipeline_map_period (c : CohortInput) :
    (pipelineTable c).map (fun x => x.period)
      = c.periods.map PeriodData.period := by
  simp only [pipelineTable, compute_net_income_and_pv, compute_survival]
  rw [show (fun x : PVRow => x.period)
        = (fun y : CostRow => y.period) ∘ PVRow.toCostRow from rfl,
    ← List.map_map, compute_pv_from_proj]
  rw [show (fun y : CostRow => y.period)
        = (fun z : RevRow => z.period) ∘ CostRow.toRevRow from rfl,
    ← List.map_map, compute_costs_proj]
  rw [show (fun z : RevRow => z.period)
        = (fun w : SurvRow => w.period) ∘ RevRow.toSurvRow from rfl,
    ← List.map_map, compute_revenue_proj]
  rw [show (fun w : SurvRow => w.period)
        = (fun b : BaseRow => b.period) ∘ SurvRow.toBaseRow from rfl,
    ← List.map_map, compute_survival_from_proj]
  simp [build_period_table, List.map_map]

/-- For a valid cohort, row `i` of the completed table is period `i + 1`. -/
lemma pipeline_getElem_period (c : CohortInput) (hc : c.valid) (i : ℕ)
    (hp : i < (pipelineTable c).length) :
    ((pipelineTable c)[i]).period = 1 + (i : ℤ) := by
  have key : ((pipelineTable c).map fun x => x.period)
      = seqExpected c.periods.length := by
    rw [pipeline_map_period c, hc.2.2]
  have hb : i < ((pipelineTable c).map fun x => x.period).length := by
    simpa using hp
  have h1 := List.getElem_of_eq key hb
  rw [List.getElem_map] at h1
  rw [h1]
  simp only [seqExpected]
  rw [List.getElem_map, List.getElem_range'_1]
  simp [Int.ofNat_eq_coe]

/-- Membership transfer from the completed table down to the base table. -/
lemma pipeline_mem_base (c : CohortInput) :
    ∀ x ∈ pipelineTable c, x.toBaseRow ∈ build_period_table c := by
  intro x hx
  have h1 : x.toCostRow ∈ compute_costs (compute_revenue
      (compute_survival (build_period_table c))) :=
    pv_mem_cost 0 _ x hx
  have h2 := costs_mem_rev _ _ h1
  have h3 := revenue_mem_surv _ _ h2
  exact survival_mem_base 1 _ _ h3

/-- Membership transfer from the completed table to the survival stage. -/
lemma pipeline_mem_surv (c : CohortInput) :
    ∀ x ∈ pipelineTable c,
      x.toSurvRow ∈ compute_survival (build_period_table c) := by
  intro x hx
  have h1 : x.toCostRow ∈ compute_costs (compute_revenue
      (compute_survival (build_period_table c))) :=
    pv_mem_cost 0 _ x hx
  have h2 := costs_mem_rev _ _ h1
  exact revenue_mem_surv _ _ h2

/-- Membership transfer from the completed table to the revenue stage. -/
lemma pipeline_mem_rev (c : CohortInput) :
    ∀ x ∈ pipelineTable c,
      x.toRevRow ∈ compute_revenue (compute_survival (build_period_table c)) := by
  intro x hx
  have h1 : x.toCostRow ∈ compute_costs (compute_revenue
      (compute_survival (build_period_table c))) :=
    pv_mem_cost 0 _ x hx
  exact costs_mem_rev _ _ h1

/-- Bounds for the survival columns, by cascading the accumulator. -/
lemma survival_mem_bounds (acc : ℚ) (df : List BaseRow)
    (hacc : 0 ≤ acc ∧ acc ≤ 1)
    (hdf : ∀ r ∈ df, 0 ≤ sfB r ∧ sfB r ≤ 1) :
    ∀ s ∈ compute_survival_from acc df,
      0 ≤ s.survival_factor ∧ s.survival_factor ≤ 1 ∧
      0 ≤ s.cumulative_survival ∧ s.cumulative_survival ≤ 1 := by
  induction df generalizing acc with
  | nil => intro s hs; cases hs
  | cons r rest ih =>
    intro s hs
    obtain ⟨hr0, hr1⟩ := hdf r (List.mem_cons_self r rest)
    rcases List.mem_cons.mp hs with h | h
    · subst h
      exact ⟨hr0, hr1, hacc.1, hacc.2⟩
    · have hacc2 : 0 ≤ acc * sfB r ∧ acc * sfB r ≤ 1 := by
        constructor
        · exact mul_nonneg hacc.1 hr0
        · calc acc * sfB r ≤ 1 * 1 :=
              mul_le_mul hacc.2 hr1 hr0 (by norm_num)
            _ = 1 := by norm_num
      exact ih (acc * sfB r) hacc2 (fun x hx => hdf x (List.mem_cons_of_mem r hx)) s h

/-- `sub` occurs at the front of `sub ++ y`. -/
lemma listOccurs_self (sub y : List Char) : listOccurs sub (sub ++ y) = true := by
  cases sub with
  | nil => cases y <;> simp [listOccurs]
  | cons c cs =>
    have htake : ((c :: cs) ++ y).take (c :: cs).length = c :: cs :=
      List.take_left (c :: cs) y
    simp only [List.cons_append] at htake ⊢
    rw [listOccurs, htake]
    simp

/-- Occurrence is preserved by prepending. -/
lemma listOccurs_mono (sub x y : List Char) (h : listOccurs sub y = true) :
    listOccurs sub (x ++ y) = true := by
  induction x with
  | nil => simpa using h
  | cons c cs ih =>
    simp only [List.cons_append]
    rw [listOccurs, ih]
    simp

/-! ### Validity of the concrete inputs -/

/-- The empty cohort passes every validator. -/
lemma emptyCohort_valid : emptyCohort.valid := by
  refine ⟨?_, ?_, rfl⟩
  · intro p hp
    simp [emptyCohort] at hp
  · norm_num [GlobalParameters.valid, emptyCohort]

/-- The one-period cohort passes every validator. -/
lemma onePeriodCohort_valid : onePeriodCohort.valid := by
  refine ⟨?_, ?_, rfl⟩
  · intro p hp
    simp only [onePeriodCohort, List.mem_singleton] at hp
    subst hp
    norm_num [PeriodData.valid, PeriodData.fieldsInRange]
  · norm_num [GlobalParameters.valid, onePeriodCohort]

/-- The two-period cohort passes every validator. -/
lemma twoPeriodCohort_valid : twoPeriodCohort.valid := by
  refine ⟨?_, ?_, rfl⟩
  · intro p hp
    simp only [twoPeriodCohort, List.mem_cons, List.mem_singleton,
      List.not_mem_nil, or_false] at hp
    rcases hp with hp | hp <;> subst hp <;>
      norm_num [PeriodData.valid, PeriodData.fieldsInRange]
  · norm_num [GlobalParameters.valid, twoPeriodCohort]

/-- The reference cohort passes every validator. -/
lemma refCohort_valid : refCohort.valid := by
  refine ⟨?_, ?_, rfl⟩
  · intro p hp
    simp only [refCohort, List.mem_singleton] at hp
    subst hp
    norm_num [PeriodData.valid, PeriodData.fieldsInRange, refPeriod]
  · norm_num [GlobalParameters.valid, refCohort]

/-! ### Claim theorems -/

/-- C1 counterexample: the cohort with an empty periods list passes
validation (the sequential-periods validator accepts the empty
sequence), yet `run_valuation` does not return a table and summary: its
`pd.DataFrame([])` base frame has no columns, so the column access
`df["prob_charge_off"]` in `compute_survival` raises `KeyError`. -/
theorem c1_empty_valid_but_fails :
    emptyCohort.valid ∧ run_valuation emptyCohort = none := by
  constructor
  · exact emptyCohort_valid
  · unfold run_valuation
    rw [if_pos (show build_period_table emptyCohort = [] from rfl)]

/-- C1 (amended): for every `CohortInput` that passes validation and has
a non-empty periods list, `run_valuation` completes without hitting any
error branch and returns a table and a `ValuationSummary`. -/
theorem c1_run_valuation_no_error (c : CohortInput) (h1 : c.valid)
    (h2 : c.periods ≠ []) : ∃ t s, run_valuation c = some (t, s) :=
  run_valuation_total c h1 h2

/-- Witness for C1: a concrete valid one-period cohort on which
`run_valuation` succeeds. -/
theorem c1_run_valuation_no_error_witness :
    onePeriodCohort.valid ∧ (run_valuation onePeriodCohort).isSome = true := by
  refine ⟨onePeriodCohort_valid, ?_⟩
  obtain ⟨t, s, h⟩ :=
    c1_run_valuation_no_error onePeriodCohort onePeriodCohort_valid (by decide)
  rw [h]
  rfl

/-- C2: account conservation.  For every valid cohort and every prefix
`1..k` of the survival table, exited charge-off accounts plus exited
attrition accounts plus the still-active accounts of period `k` scaled
by period `k`'s survival factor equal `num_accounts` exactly. -/
theorem c2_conservation (c : CohortInput) (hc : c.valid) (k : ℕ)
    (hk : k < (compute_survival (build_period_table c)).length) :
    (((compute_survival (build_period_table c)).take (k + 1)).map
        SurvRow.charge_off_accounts).sum +
    (((compute_survival (build_period_table c)).take (k + 1)).map
        SurvRow.attrition_accounts).sum +
    ((compute_survival (build_period_table c))[k]).active_accounts_bop *
      ((compute_survival (build_period_table c))[k]).survival_factor
    = (c.parameters.num_accounts : ℚ) := by
  have h := conservation_from c.parameters.num_accounts (build_period_table c)
    (fun r hr => ((build_row_broadcast c) r hr).2.2) 1 k hk
  simpa [compute_survival] using h

/-- Length of the one-period cohort's survival table. -/
lemma onePeriod_surv_len :
    0 < (compute_survival (build_period_table onePeriodCohort)).length := by
  decide

/-- Witness for C2: the conservation identity at the one-period cohort,
prefix `k = 0`. -/
theorem c2_conservation_witness :
    onePeriodCohort.valid ∧
    ((((compute_survival (build_period_table onePeriodCohort)).take 1).map
        SurvRow.charge_off_accounts).sum +
     (((compute_survival (build_period_table onePeriodCohort)).take 1).map
        SurvRow.attrition_accounts).sum +
     ((compute_survival (build_period_table onePeriodCohort)).get
        ⟨0, onePeriod_surv_len⟩).active_accounts_bop *
       ((compute_survival (build_period_table onePeriodCohort)).get
        ⟨0, onePeriod_surv_len⟩).survival_factor
     = (onePeriodCohort.parameters.num_accounts : ℚ)) := by
  refine ⟨onePeriodCohort_valid, ?_⟩
  have h := c2_conservation onePeriodCohort onePeriodCohort_valid 0 onePeriod_surv_len
  simpa using h

/-- C3: monotonic decay.  For every valid cohort, `active_accounts_bop`
is non-increasing in period order, and it is zero at period `k` only if
some earlier period `j < k` has `prob_charge_off + prob_attrition = 1`. -/
theorem c3_monotonic_decay (c : CohortInput) (hc : c.valid) :
    (∀ i j (hi : i < (compute_survival (build_period_table c)).length)
        (hj : j < (compute_survival (build_period_table c)).length),
      i ≤ j →
        ((compute_survival (build_period_table c))[j]).active_accounts_bop
          ≤ ((compute_survival (build_period_table c))[i]).active_accounts_bop) ∧
    (∀ k (hk : k < (compute_survival (build_period_table c)).length),
      ((compute_survival (build_period_table c))[k]).active_accounts_bop = 0 →
      ∃ j, j < k ∧ ∃ hj : j < (compute_survival (build_period_table c)).length,
        ((compute_survival (build_period_table c)).get ⟨j, hj⟩).prob_charge_off
          + ((compute_survival (build_period_table c)).get
              ⟨j, hj⟩).prob_attrition = 1) := by
  have hbounds : ∀ r ∈ build_period_table c, 0 ≤ sfB r ∧ sfB r ≤ 1 := by
    intro r hr
    obtain ⟨h1, h2, h3, h4, h5, _⟩ := build_row_bounds c hc r hr
    unfold sfB
    constructor <;> linarith
  have hN : ∀ r ∈ build_period_table c,
      r.num_accounts = c.parameters.num_accounts :=
    fun r hr => (build_row_broadcast c r hr).2.2
  have hNpos : 0 < c.parameters.num_accounts := hc.2.1.2.2.2
  have hNq : (0 : ℚ) ≤ (c.parameters.num_accounts : ℚ) := by
    exact_mod_cast le_of_lt hNpos
  constructor
  · intro i j hi hj hij
    have hi2 : i < (build_period_table c).length := by
      simpa [compute_survival] using hi
    have hj2 : j < (build_period_table c).length := by
      simpa [compute_survival] using hj
    simp only [compute_survival] at hi hj ⊢
    rw [survival_getElem_abop 1 _ i hi hi2, survival_getElem_abop 1 _ j hj hj2,
      hN _ (List.getElem_mem hi2), hN _ (List.getElem_mem hj2)]
    have hsplit : (build_period_table c).take j
        = (build_period_table c).take i
          ++ ((build_period_table c).drop i).take (j - i) := by
      rw [← List.take_add]
      congr 1
      omega
    rw [hsplit, List.map_append, List.prod_append]
    have hPi := prod_unit_interval (((build_period_table c).take i).map sfB)
      (by
        intro x hx
        obtain ⟨r, hr, rfl⟩ := List.mem_map.mp hx
        exact hbounds r (List.mem_of_mem_take hr))
    have hPm := prod_unit_interval
      ((((build_period_table c).drop i).take (j - i)).map sfB)
      (by
        intro x hx
        obtain ⟨r, hr, rfl⟩ := List.mem_map.mp hx
        exact hbounds r (List.mem_of_mem_drop (List.mem_of_mem_take hr)))
    have h1 : (((build_period_table c).take i).map sfB).prod
        * ((((build_period_table c).drop i).take (j - i)).map sfB).prod
        ≤ (((build_period_table c).take i).map sfB).prod := by
      have h0 := mul_le_mul_of_nonneg_left hPm.2 hPi.1
      simpa using h0
    calc (c.parameters.num_accounts : ℚ) * 1
          * ((((build_period_table c).take i).map sfB).prod
            * ((((build_period_table c).drop i).take (j - i)).map sfB).prod)
        = (c.parameters.num_accounts : ℚ)
          * ((((build_period_table c).take i).map sfB).prod
            * ((((build_period_table c).drop i).take (j - i)).map sfB).prod) := by
          ring
      _ ≤ (c.parameters.num_accounts : ℚ)
          * (((build_period_table c).take i).map sfB).prod :=
          mul_le_mul_of_nonneg_left h1 hNq
      _ = (c.parameters.num_accounts : ℚ) * 1
          * (((build_period_table c).take i).map sfB).prod := by ring
  · intro k hk habop
    have hk2 : k < (build_period_table c).length := by
      simpa [compute_survival] using hk
    simp only [compute_survival] at hk habop
    rw [survival_getElem_abop 1 _ k hk hk2,
      hN _ (List.getElem_mem hk2)] at habop
    have hNne : (c.parameters.num_accounts : ℚ) ≠ 0 := by
      exact_mod_cast ne_of_gt hNpos
    have hprod : (((build_period_table c).take k).map sfB).prod = 0 := by
      rcases mul_eq_zero.mp habop with h | h
      · rcases mul_eq_zero.mp h with h2 | h2
        · exact absurd h2 hNne
        · exact absurd h2 one_ne_zero
      · exact h
    rw [List.prod_eq_zero_iff] at hprod
    obtain ⟨r, hrmem, hr0⟩ := List.mem_map.mp hprod
    obtain ⟨j, hjlen, hjr⟩ := List.getElem_of_mem hrmem
    have hjk : j < k := by
      have := hjlen
      simp only [List.length_take] at this
      omega
    have hjdf : j < (build_period_table c).length := by
      have := hjlen
      simp only [List.length_take] at this
      omega
    have hjr2 : (build_period_table c)[j] = r := by
      rw [← hjr, List.getElem_take]
    have hjt : j < (compute_survival_from 1 (build_period_table c)).length := by
      simpa using hjdf
    refine ⟨j, hjk, by simpa [compute_survival] using hjdf, ?_⟩
    have hbase : ((compute_survival_from 1 (build_period_table c)).get
        ⟨j, hjt⟩).toBaseRow = (build_period_table c)[j] := by
      rw [List.get_eq_getElem]
      exact survival_getElem_base 1 _ j hjt hjdf
    have hpco : ((compute_survival_from 1 (build_period_table c)).get
        ⟨j, hjt⟩).prob_charge_off = r.prob_charge_off := by
      rw [show ((compute_survival_from 1 (build_period_table c)).get
          ⟨j, hjt⟩).prob_charge_off
        = (((compute_survival_from 1 (build_period_table c)).get
          ⟨j, hjt⟩).toBaseRow).prob_charge_off from rfl, hbase, hjr2]
    have hpat : ((compute_survival_from 1 (build_period_table c)).get
        ⟨j, hjt⟩).prob_attrition = r.prob_attrition := by
      rw [show ((compute_survival_from 1 (build_period_table c)).get
          ⟨j, hjt⟩).prob_attrition
        = (((compute_survival_from 1 (build_period_table c)).get
          ⟨j, hjt⟩).toBaseRow).prob_attrition from rfl, hbase, hjr2]
    show ((compute_survival_from 1 (build_period_table c)).get
        ⟨j, hjt⟩).prob_charge_off
      + ((compute_survival_from 1 (build_period_table c)).get
        ⟨j, hjt⟩).prob_attrition = 1
    rw [hpco, hpat]
    unfold sfB at hr0
    linarith

/-- Length of the two-period cohort's survival table, upper row. -/
lemma twoPeriod_surv_len :
    1 < (compute_survival (build_period_table twoPeriodCohort)).length := by
  simp [compute_survival, twoPeriodCohort]

/-- Length of the two-period cohort's survival table, first row. -/
lemma twoPeriod_surv_len0 :
    0 < (compute_survival (build_period_table twoPeriodCohort)).length := by
  simp [compute_survival, twoPeriodCohort]

/-- Witness for C3: monotone decay between rows 0 and 1 of the
two-period cohort. -/
theorem c3_monotonic_decay_witness :
    twoPeriodCohort.valid ∧
    ((compute_survival (build_period_table twoPeriodCohort)).get
        ⟨1, twoPeriod_surv_len⟩).active_accounts_bop
      ≤ ((compute_survival (build_period_table twoPeriodCohort)).get
        ⟨0, twoPeriod_surv_len0⟩).active_accounts_bop := by
  refine ⟨twoPeriodCohort_valid, ?_⟩
  exact (c3_monotonic_decay twoPeriodCohort twoPeriodCohort_valid).1 0 1
    twoPeriod_surv_len0 twoPeriod_surv_len (by omega)

/-- For a valid cohort every base row's survival factor is in `[0,1]`. -/
lemma build_sfB_bounds (c : CohortInput) (hc : c.valid) :
    ∀ r ∈ build_period_table c, 0 ≤ sfB r ∧ sfB r ≤ 1 := by
  intro r hr
  obtain ⟨h1, h2, h3, h4, h5, _⟩ := build_row_bounds c hc r hr
  unfold sfB
  constructor <;> linarith

/-- C10: implicit non-negativity.  For every valid cohort, every row of
the completed table has `survival_factor` and `cumulative_survival` in
`[0,1]` and non-negative account counts, revenue components, and cost
components. -/
theorem c10_nonnegativity (c : CohortInput) (hc : c.valid) :
    ∀ x ∈ pipelineTable c,
      0 ≤ x.survival_factor ∧ x.survival_factor ≤ 1 ∧
      0 ≤ x.cumulative_survival ∧ x.cumulative_survival ≤ 1 ∧
      0 ≤ x.active_accounts_bop ∧ 0 ≤ x.charge_off_accounts ∧
      0 ≤ x.attrition_accounts ∧ 0 ≤ x.finance_charge ∧
      0 ≤ x.interchange ∧ 0 ≤ x.fee_income ∧ 0 ≤ x.total_revenue ∧
      0 ≤ x.charge_off_loss ∧ 0 ≤ x.total_cost := by
  intro x hx
  have hs : x.toSurvRow ∈ compute_survival (build_period_table c) :=
    pipeline_mem_surv c x hx
  have hb : x.toBaseRow ∈ build_period_table c := pipeline_mem_base c x hx
  have hrev : x.toRevRow
      ∈ compute_revenue (compute_survival (build_period_table c)) :=
    pipeline_mem_rev c x hx
  have hcost : x.toCostRow ∈ compute_costs (compute_revenue
      (compute_survival (build_period_table c))) :=
    pv_mem_cost 0 _ x hx
  obtain ⟨hp1, hp2, hp3, hp4, hp5, hp6, hp7, hp8, hp9⟩ :=
    build_row_bounds c hc _ hb
  obtain ⟨hsf0, hsf1, hcs0, hcs1⟩ := survival_mem_bounds 1
    (build_period_table c) (by norm_num) (build_sfB_bounds c hc) _ hs
  have hrow := survival_row_facts 1 (build_period_table c) _ hs
  have hnum : x.toSurvRow.num_accounts = c.parameters.num_accounts :=
    (build_row_broadcast c _ hb).2.2
  have hNq : (0 : ℚ) ≤ (c.parameters.num_accounts : ℚ) := by
    exact_mod_cast le_of_lt hc.2.1.2.2.2
  have habop : 0 ≤ x.active_accounts_bop := by
    rw [show x.active_accounts_bop = x.toSurvRow.active_accounts_bop from rfl,
      hrow.2.1, hnum]
    exact mul_nonneg hNq hcs0
  have hic0 : 0 ≤ x.flat_interchange_rate := by
    rw [show x.flat_interchange_rate = x.toBaseRow.flat_interchange_rate
        from rfl, (build_row_broadcast c _ hb).1]
    exact hc.2.1.1
  have hrevf := revenue_row_facts _ _ hrev
  have hcostf := costs_row_facts _ _ hcost
  have hfc : 0 ≤ x.finance_charge := by
    rw [show x.finance_charge = x.toRevRow.finance_charge from rfl, hrevf.1]
    exact mul_nonneg (mul_nonneg habop hp6) hp8
  have hic : 0 ≤ x.interchange := by
    rw [show x.interchange = x.toRevRow.interchange from rfl, hrevf.2.1]
    exact mul_nonneg (mul_nonneg habop hp7) hic0
  have hfee : 0 ≤ x.fee_income := by
    rw [show x.fee_income = x.toRevRow.fee_income from rfl, hrevf.2.2.1]
    exact mul_nonneg habop hp9
  have hcloss : 0 ≤ x.charge_off_loss := by
    rw [show x.charge_off_loss = x.toCostRow.charge_off_loss from rfl,
      hcostf.1]
    exact mul_nonneg (mul_nonneg habop hp1) hp6
  refine ⟨hsf0, hsf1, hcs0, hcs1, habop, ?_, ?_, hfc, hic, hfee, ?_, hcloss, ?_⟩
  · rw [show x.charge_off_accounts = x.toSurvRow.charge_off_accounts from rfl,
      hrow.2.2.1]
    exact mul_nonneg habop hp1
  · rw [show x.attrition_accounts = x.toSurvRow.attrition_accounts from rfl,
      hrow.2.2.2]
    exact mul_nonneg habop hp3
  · rw [show x.total_revenue = x.toRevRow.total_revenue from rfl, hrevf.2.2.2]
    have h1 := hrevf.1
    have h2 := hrevf.2.1
    have h3 := hrevf.2.2.1
    rw [show x.toRevRow.finance_charge = x.finance_charge from rfl,
      show x.toRevRow.interchange = x.interchange from rfl,
      show x.toRevRow.fee_income = x.fee_income from rfl]
    exact add_nonneg (add_nonneg hfc hic) hfee
  · rw [show x.total_cost = x.toCostRow.total_cost from rfl, hcostf.2]
    exact hcloss

/-- Length of the one-period cohort's completed table. -/
lemma onePeriod_pipe_len : 0 < (pipelineTable onePeriodCohort).length := by
  simp [onePeriodCohort]

/-- Witness for C10 at row 0 of the one-period cohort. -/
theorem c10_nonnegativity_witness :
    onePeriodCohort.valid ∧
    0 ≤ ((pipelineTable onePeriodCohort).get
        ⟨0, onePeriod_pipe_len⟩).active_accounts_bop ∧
    0 ≤ ((pipelineTable onePeriodCohort).get
        ⟨0, onePeriod_pipe_len⟩).total_revenue := by
  have hmem : (pipelineTable onePeriodCohort).get ⟨0, onePeriod_pipe_len⟩
      ∈ pipelineTable onePeriodCohort := by
    rw [List.get_eq_getElem]
    exact List.getElem_mem _
  have h := c10_nonnegativity onePeriodCohort onePeriodCohort_valid _ hmem
  exact ⟨onePeriodCohort_valid, h.2.2.2.2.1, h.2.2.2.2.2.2.2.2.2.2.1⟩

/-- C4: discounting.  Every row's `discount_factor` equals
`1 / (1 + discount_rate) ^ (period / 12)`; with a positive rate the
factors strictly decrease in period order; with a zero rate every factor
is `1` and the summary's `total_pv` equals `total_net_income`. -/
theorem c4_discounting (c : CohortInput) (hc : c.valid) :
    (∀ i (hi : i < (pipelineTable c).length),
      ((pipelineTable c)[i]).discount_factor
        = 1 / (1 + (c.parameters.discount_rate : ℝ))
            ^ ((((pipelineTable c)[i]).period : ℝ) / 12)) ∧
    (0 < c.parameters.discount_rate →
      ∀ i j (hi : i < (pipelineTable c).length)
        (hj : j < (pipelineTable c).length), i < j →
        ((pipelineTable c)[j]).discount_factor
          < ((pipelineTable c)[i]).discount_factor) ∧
    (c.parameters.discount_rate = 0 →
      (∀ i (hi : i < (pipelineTable c).length),
        ((pipelineTable c)[i]).discount_factor = 1) ∧
      (∀ t s, run_valuation c = some (t, s) →
        s.total_pv = (s.total_net_income : ℝ))) := by
  have hdf : ∀ x ∈ pipelineTable c,
      x.discount_factor = 1 / (1 + (c.parameters.discount_rate : ℝ))
        ^ ((x.period : ℝ) / 12) := by
    intro x hx
    have hfact := pv_row_facts 0 _ x hx
    have hbr : x.toBaseRow ∈ build_period_table c := pipeline_mem_base c x hx
    have hdr : x.discount_rate = c.parameters.discount_rate := by
      rw [show x.discount_rate = x.toBaseRow.discount_rate from rfl,
        (build_row_broadcast c _ hbr).2.1]
    rw [hfact.2.1, hdr]
  refine ⟨fun i hi => hdf _ (List.getElem_mem hi), ?_, ?_⟩
  · intro hr i j hi hj hij
    rw [hdf _ (List.getElem_mem hi), hdf _ (List.getElem_mem hj),
      pipeline_getElem_period c hc i hi, pipeline_getElem_period c hc j hj]
    have hb1 : (1 : ℝ) < 1 + (c.parameters.discount_rate : ℝ) := by
      have h0 : (0 : ℝ) < (c.parameters.discount_rate : ℝ) := by
        exact_mod_cast hr
      linarith
    have hlt : ((1 + (i : ℤ) : ℤ) : ℝ) / 12 < ((1 + (j : ℤ) : ℤ) : ℝ) / 12 := by
      have hij2 : (i : ℝ) < j := by exact_mod_cast hij
      push_cast
      linarith
    have hpow := (Real.rpow_lt_rpow_left_iff hb1).mpr hlt
    have hpos : (0 : ℝ) < (1 + (c.parameters.discount_rate : ℝ))
        ^ (((1 + (i : ℤ) : ℤ) : ℝ) / 12) :=
      Real.rpow_pos_of_pos (by linarith) _
    rw [one_div, one_div]
    exact inv_strictAnti₀ hpos hpow
  · intro hr0
    have hone : ∀ x ∈ pipelineTable c, x.discount_factor = 1 := by
      intro x hx
      rw [hdf x hx, hr0]
      push_cast
      rw [add_zero, Real.one_rpow]
      norm_num
    refine ⟨fun i hi => hone _ (List.getElem_mem hi), ?_⟩
    intro t s hts
    obtain ⟨ht, hsum⟩ := run_valuation_eq_some c t s hts
    obtain ⟨hpv, hni, _⟩ := compute_summary_eq _ _ _ hsum
    rw [hpv, hni, rat_cast_list_sum, List.map_map]
    refine congrArg List.sum (List.map_congr_left ?_)
    intro x hx
    have hfact := pv_row_facts 0 _ x hx
    show x.pv_net_income = (x.net_income : ℝ)
    rw [hfact.2.2, hone x hx, mul_one]

/-- C9: every pipeline stage is pure and only appends columns: mapping
each stage's output back onto the input's columns recovers the input,
row for row. -/
theorem c9_stage_framing :
    (∀ df : List BaseRow, (compute_survival df).map SurvRow.toBaseRow = df) ∧
    (∀ df : List SurvRow, (compute_revenue df).map RevRow.toSurvRow = df) ∧
    (∀ df : List RevRow, (compute_costs df).map CostRow.toRevRow = df) ∧
    (∀ df : List CostRow,
      (compute_net_income_and_pv df).map PVRow.toCostRow = df) :=
  ⟨fun df => compute_survival_from_proj 1 df, compute_revenue_proj,
    compute_costs_proj, fun df => compute_pv_from_proj 0 df⟩

/-- Length of the reference cohort's completed table. -/
lemma ref_pipe_len : 0 < (pipelineTable refCohort).length := by
  simp [refCohort]

/-- Witness for C4: the discount-factor formula at row 0 of the
reference cohort. -/
theorem c4_discounting_witness :
    refCohort.valid ∧
    ((pipelineTable refCohort).get ⟨0, ref_pipe_len⟩).discount_factor
      = 1 / (1 + (refCohort.parameters.discount_rate : ℝ))
          ^ ((((pipelineTable refCohort).get
                ⟨0, ref_pipe_len⟩).period : ℝ) / 12) := by
  refine ⟨refCohort_valid, ?_⟩
  have h := (c4_discounting refCohort refCohort_valid).1 0 ref_pipe_len
  simpa using h

/-- C5: cumulative PV identity.  For every valid non-empty cohort, the
last row's `cumulative_pv` equals the summary's `total_pv`. -/
theorem c5_cumulative_pv (c : CohortInput) (hc : c.valid)
    (hne : c.periods ≠ []) (t : List PVRow) (s : ValuationSummary)
    (h : run_valuation c = some (t, s)) :
    ∃ last, t.getLast? = some last ∧ last.cumulative_pv = s.total_pv := by
  obtain ⟨ht, hsum⟩ := run_valuation_eq_some c t s h
  subst ht
  obtain ⟨hpv, _, _, _, _, _, _, last, hl, _⟩ := compute_summary_eq _ _ _ hsum
  refine ⟨last, hl, ?_⟩
  have hcum := pv_from_getLast_cum 0
    (compute_costs (compute_revenue (compute_survival (build_period_table c))))
    last hl
  rw [hpv]
  rw [zero_add] at hcum
  exact hcum

/-- Witness for C5: the identity at the one-period cohort, stated on
option values so that it is closed. -/
theorem c5_cumulative_pv_witness :
    onePeriodCohort.valid ∧
    (run_valuation onePeriodCohort).isSome = true ∧
    ((run_valuation onePeriodCohort).bind fun p => p.1.getLast?).map
        PVRow.cumulative_pv
      = (run_valuation onePeriodCohort).map fun p => p.2.total_pv := by
  obtain ⟨t, s, h⟩ :=
    run_valuation_total onePeriodCohort onePeriodCohort_valid (by decide)
  obtain ⟨last, hl, he⟩ :=
    c5_cumulative_pv onePeriodCohort onePeriodCohort_valid (by decide) t s h
  refine ⟨onePeriodCohort_valid, by rw [h]; rfl, ?_⟩
  rw [h]
  simp [hl, he]

/-- C6: the spec's reference scenario.  One period, 1000 accounts,
`prob_charge_off = 0.02`, `prob_attrition = 0.03`,
`revolving_balance = 5000`, `purchase_amount = 1000`,
`finance_charge_rate = 0.015`, `other_fees = 25`,
`flat_interchange_rate = 0.02`, `discount_rate = 0.10` gives
`active_accounts_bop = 1000`, `finance_charge = 75000`,
`interchange = 20000`, `fee_income = 25000`, `charge_off_loss = 100000`,
`net_income = 20000`, and `discount_factor = 1.10 ^ (-1/12)`. -/
theorem c6_reference_scenario :
    (pipelineTable refCohort).map (fun row =>
      (row.active_accounts_bop, row.finance_charge, row.interchange,
       row.fee_income, row.charge_off_loss, row.net_income))
      = [((1000 : ℚ), 75000, 20000, 25000, 100000, 20000)] ∧
    (pipelineTable refCohort).map PVRow.discount_factor
      = [(1.1 : ℝ) ^ (-(1 / 12) : ℝ)] := by
  constructor
  · simp only [pipelineTable, compute_net_income_and_pv, compute_pv_from,
      compute_costs, compute_revenue, compute_survival, compute_survival_from,
      build_period_table, refCohort, refPeriod, List.map_cons, List.map_nil]
    norm_num
  · simp only [pipelineTable, compute_net_income_and_pv, compute_pv_from,
      compute_costs, compute_revenue, compute_survival, compute_survival_from,
      build_period_table, refCohort, refPeriod, List.map_cons, List.map_nil]
    rw [Real.rpow_neg (by norm_num : (0 : ℝ) ≤ 1.1)]
    rw [show ((1 : ℤ) : ℝ) = 1 from by norm_num]
    rw [show (1 + ((0.10 : ℚ) : ℝ)) = 1.1 from by push_cast; norm_num, one_div]

/-- The constructor form of `3/5`. -/
lemma q35_eq : q35 = 3 / 5 := by
  unfold q35
  rw [Rat.mk'_eq_divInt, Rat.divInt_eq_div]
  norm_num

/-- The constructor form of `6/5`. -/
lemma q65_eq : q65 = 3 / 5 + 3 / 5 := by
  unfold q65
  rw [Rat.mk'_eq_divInt, Rat.divInt_eq_div]
  norm_num

/-- C7 (amended): constructing a `PeriodData` with in-range fields
succeeds iff `prob_charge_off + prob_attrition ≤ 1` (a sum of exactly
`1` is accepted), and on failure the raised message names both
probability values; their numeric sum is not part of the message. -/
theorem c7_competing_risk (p : PeriodData) (hp : p.fieldsInRange) :
    (mkPeriodData p = .ok p ↔ p.prob_charge_off + p.prob_attrition ≤ 1) ∧
    (1 < p.prob_charge_off + p.prob_attrition →
      mkPeriodData p
        = .error (competingRiskMsg p.prob_charge_off p.prob_attrition) ∧
      strOccurs (toString p.prob_charge_off)
        (competingRiskMsg p.prob_charge_off p.prob_attrition) ∧
      strOccurs (toString p.prob_attrition)
        (competingRiskMsg p.prob_charge_off p.prob_attrition)) := by
  constructor
  · unfold mkPeriodData
    rw [if_neg (not_not_intro hp)]
    by_cases hsum : 1 < p.prob_charge_off + p.prob_attrition
    · rw [if_pos hsum]
      exact ⟨fun he => Except.noConfusion he, fun hle => absurd hsum (not_lt.mpr hle)⟩
    · rw [if_neg hsum]
      exact ⟨fun _ => not_lt.mp hsum, fun _ => rfl⟩
  · intro hsum
    refine ⟨?_, ?_, ?_⟩
    · unfold mkPeriodData
      rw [if_neg (not_not_intro hp), if_pos hsum]
    · unfold competingRiskMsg strOccurs
      simp only [String.data_append, List.append_assoc]
      exact listOccurs_mono _ _ _ (listOccurs_self _ _)
    · unfold competingRiskMsg strOccurs
      simp only [String.data_append, List.append_assoc]
      exact listOccurs_mono _ _ _ (listOccurs_mono _ _ _
        (listOccurs_mono _ _ _ (listOccurs_self _ _)))

/-- Witness for C7: the reference period is accepted, and the
`6/5`-probability period is rejected with the competing-risk message. -/
theorem c7_competing_risk_witness :
    refPeriod.fieldsInRange ∧ mkPeriodData refPeriod = .ok refPeriod ∧
    mkPeriodData badPeriod
      = .error (competingRiskMsg badPeriod.prob_charge_off
          badPeriod.prob_attrition) := by
  have h1 : refPeriod.fieldsInRange := by
    norm_num [PeriodData.fieldsInRange, refPeriod]
  have h2 : badPeriod.fieldsInRange := by
    norm_num [PeriodData.fieldsInRange, badPeriod]
  refine ⟨h1, ?_, ?_⟩
  · exact (c7_competing_risk refPeriod h1).1.mpr (by norm_num [refPeriod])
  · exact ((c7_competing_risk badPeriod h2).2 (by norm_num [badPeriod])).1

/-- C7 counterexample: for `prob_charge_off = prob_attrition = 3/5` the
construction fails with the competing-risk message, but the message does
not contain the rendering of the sum `6/5`: the original claim that the
message names the sum is false. -/
theorem c7_msg_counterexample :
    mkPeriodData badPeriod
      = .error (competingRiskMsg badPeriod.prob_charge_off
          badPeriod.prob_attrition) ∧
    ¬ strOccurs (toString (badPeriod.prob_charge_off + badPeriod.prob_attrition))
        (competingRiskMsg badPeriod.prob_charge_off badPeriod.prob_attrition) := by
  constructor
  · unfold mkPeriodData
    rw [if_neg (not_not_intro
        (by norm_num [PeriodData.fieldsInRange, badPeriod])),
      if_pos (by norm_num [badPeriod])]
  · have hsum : badPeriod.prob_charge_off + badPeriod.prob_attrition = q65 := by
      rw [q65_eq]; rfl
    have hco : badPeriod.prob_charge_off = q35 := by rw [q35_eq]; rfl
    have hat : badPeriod.prob_attrition = q35 := by rw [q35_eq]; rfl
    rw [hsum, hco, hat]
    decide

/-- C8 (amended): constructing a `CohortInput` succeeds iff its periods'
`period` values are exactly `[1, 2, ..., N]`; on failure the raised
message lists the first five actual period indices (followed by a
literal ellipsis); the expected indices are not part of the message. -/
theorem c8_sequential_validation (ps : List PeriodData) (g : GlobalParameters) :
    (mkCohortInput ps g = .ok ⟨ps, g⟩
      ↔ ps.map PeriodData.period = seqExpected ps.length) ∧
    (ps.map PeriodData.period ≠ seqExpected ps.length →
      mkCohortInput ps g = .error (seqMsg (ps.map PeriodData.period)) ∧
      strOccurs (pyIntList ((ps.map PeriodData.period).take 5))
        (seqMsg (ps.map PeriodData.period))) := by
  constructor
  · simp only [mkCohortInput]
    by_cases h : ps.map PeriodData.period ≠ seqExpected ps.length
    · rw [if_pos h]
      exact ⟨fun he => Except.noConfusion he, fun heq => absurd heq h⟩
    · rw [if_neg h]
      exact ⟨fun _ => not_not.mp h, fun _ => rfl⟩
  · intro hne
    refine ⟨?_, ?_⟩
    · simp only [mkCohortInput]
      rw [if_pos hne]
    · unfold seqMsg strOccurs
      simp only [String.data_append, List.append_assoc]
      exact listOccurs_mono _ _ _ (listOccurs_self _ _)

/-- Witness for C8: the in-order period list is accepted; the
out-of-order list `[2, 1]` is rejected with the sequence message. -/
theorem c8_sequential_validation_witness :
    mkCohortInput twoPeriodCohort.periods someParams
      = .ok ⟨twoPeriodCohort.periods, someParams⟩ ∧
    mkCohortInput badPeriods someParams
      = .error (seqMsg (badPeriods.map PeriodData.period)) := by
  refine ⟨(c8_sequential_validation _ _).1.mpr (by decide),
    ((c8_sequential_validation _ _).2 (by decide)).1⟩

/-- C8 counterexample: for periods `[2, 1]` the rejection message shows
the actual leading indices, but it does not contain the rendering
`[1, 2]` of the expected indices: the original claim that the message
lists actual versus expected indices is false. -/
theorem c8_msg_counterexample :
    mkCohortInput badPeriods someParams
      = .error (seqMsg (badPeriods.map PeriodData.period)) ∧
    strOccurs (pyIntList ((badPeriods.map PeriodData.period).take 5))
      (seqMsg (badPeriods.map PeriodData.period)) ∧
    ¬ strOccurs (pyIntList (seqExpected badPeriods.length))
      (seqMsg (badPeriods.map PeriodData.period)) := by
  refine ⟨?_, ?_, ?_⟩
  · simp only [mkCohortInput]
    rw [if_pos (by decide)]
  · decide
  · decide

end CreditValuation
